import Mathlib

/-!
Shallow embedding of the ARC frame replacer of src/buffer/arc_replacer.cpp
(class ArcReplacer). Frame ids and page ids are modelled as Nat; the C++
size_t counters (curr_size_, mru_target_size_) are Nat with explicit
arithmetic modulo 2 ^ 64 at the points where the C++ code adds or subtracts
them, so that unsigned wrap-around is reproduced faithfully. The two
std::unordered_map indexes are association lists with the usual
insert-overwrites / erase-removes-key semantics; std::list is a Lean List
whose head is the list's front.
-/

namespace ArcSpec

/-- Modulus of the C++ size_t counters (64-bit unsigned). -/
def W : Nat := 2 ^ 64

/-- size_t increment: n + 1 computed modulo 2 ^ 64. -/
def incr64 (n : Nat) : Nat := (n + 1) % W

/-- size_t subtraction a - b computed modulo 2 ^ 64 (wraps when b > a). -/
def sub64 (a b : Nat) : Nat := (a + (W - b % W)) % W

/-- size_t decrement: n - 1 in unsigned arithmetic. -/
def decr64 (n : Nat) : Nat := sub64 n 1

/-- The arc_status_ field of FrameStatus: which of the four catalogs an
entry belongs to. -/
inductive ArcStatus
  | MRU
  | MFU
  | MRU_GHOST
  | MFU_GHOST
deriving DecidableEq, Repr

/-- The FrameStatus record stored (behind a shared_ptr) in alive_map_ and
ghost_map_: page id, frame id, the evictable flag and the catalog tag. -/
structure FrameStatus where
  page_id_ : Nat
  frame_id_ : Nat
  evictable_ : Bool
  arc_status_ : ArcStatus
deriving DecidableEq, Repr

/-- Lookup in a std::unordered_map modelled as an association list
(map.find / map operator[] read). -/
def mapFind (k : Nat) : List (Nat × FrameStatus) → Option FrameStatus
  | [] => none
  | (k2, v) :: t => if k = k2 then some v else mapFind k t

/-- map.erase(k): every binding of key k is removed. -/
def mapErase (k : Nat) : List (Nat × FrameStatus) → List (Nat × FrameStatus)
  | [] => []
  | (k2, v) :: t => if k2 = k then mapErase k t else (k2, v) :: mapErase k t

/-- map[k] = v: the assignment overwrites any previous binding of k. -/
def mapInsert (k : Nat) (v : FrameStatus) (m : List (Nat × FrameStatus)) :
    List (Nat × FrameStatus) :=
  (k, v) :: mapErase k m

/-- The state of an ArcReplacer: the four catalog lists (front of the
std::list is the head of the Lean list), the two indexes, and the counters.
mru_ and mfu_ hold frame ids, mru_ghost_ and mfu_ghost_ hold page ids. -/
structure ArcReplacer where
  replacer_size_ : Nat
  mru_ : List Nat
  mfu_ : List Nat
  mru_ghost_ : List Nat
  mfu_ghost_ : List Nat
  alive_map_ : List (Nat × FrameStatus)
  ghost_map_ : List (Nat × FrameStatus)
  curr_size_ : Nat
  mru_target_size_ : Nat
deriving DecidableEq, Repr

/-- The constructor ArcReplacer(num_frames): all lists empty, curr_size_ = 0,
mru_target_size_ = 0. -/
def ArcReplacer.new (num_frames : Nat) : ArcReplacer :=
  { replacer_size_ := num_frames
    mru_ := []
    mfu_ := []
    mru_ghost_ := []
    mfu_ghost_ := []
    alive_map_ := []
    ghost_map_ := []
    curr_size_ := 0
    mru_target_size_ := 0 }

/-- Case 4 of RecordAccess (the miss path, lines 294-321 of
arc_replacer.cpp): possibly trim a ghost tail, then push the frame onto the
front of mru_ with a fresh non-evictable FrameStatus in alive_map_. -/
def ArcReplacer.recordMiss (s : ArcReplacer) (frame_id page_id : Nat) : ArcReplacer :=
  let s1 :=
    if s.mru_.length + s.mru_ghost_.length = s.replacer_size_ then
      match s.mru_ghost_.getLast? with
      | some gpid =>
          { s with mru_ghost_ := s.mru_ghost_.dropLast
                   ghost_map_ := mapErase gpid s.ghost_map_ }
      | none => s
    else if s.mru_.length + s.mru_ghost_.length < s.replacer_size_ then
      if s.mru_.length + s.mfu_.length + s.mru_ghost_.length + s.mfu_ghost_.length
          = 2 * s.replacer_size_ then
        match s.mfu_ghost_.getLast? with
        | some gpid =>
            { s with mfu_ghost_ := s.mfu_ghost_.dropLast
                     ghost_map_ := mapErase gpid s.ghost_map_ }
        | none => s
      else s
    else s
  { s1 with mru_ := frame_id :: s1.mru_
            alive_map_ := mapInsert frame_id ⟨page_id, frame_id, false, .MRU⟩ s1.alive_map_ }

/-- ArcReplacer::RecordAccess (arc_replacer.cpp lines 219-322). The four
cases: hit on a resident entry, hit on a ghost of mru_ghost_, hit on a ghost
of mfu_ghost_, miss. The access_type parameter is unused by the source and
omitted. -/
def ArcReplacer.RecordAccess (s : ArcReplacer) (frame_id page_id : Nat) : ArcReplacer :=
  match mapFind frame_id s.alive_map_ with
  | some fs =>
    match fs.arc_status_ with
    | .MRU =>
        if frame_id ∈ s.mru_ then
          { s with mru_ := s.mru_.erase frame_id
                   mfu_ := frame_id :: s.mfu_
                   alive_map_ := mapInsert frame_id { fs with arc_status_ := .MFU } s.alive_map_ }
        else s
    | .MFU =>
        if frame_id ∈ s.mfu_ then
          { s with mfu_ := frame_id :: s.mfu_.erase frame_id }
        else s
    | _ => s
  | none =>
    match mapFind page_id s.ghost_map_ with
    | some gs =>
      if gs.arc_status_ = .MRU_GHOST then
        let p' :=
          if s.mru_ghost_.length ≥ s.mfu_ghost_.length then
            min s.replacer_size_ (incr64 s.mru_target_size_)
          else
            min s.replacer_size_
              ((s.mru_target_size_ + s.mfu_ghost_.length / s.mru_ghost_.length) % W)
        { s with mru_target_size_ := p'
                 mru_ghost_ := s.mru_ghost_.erase page_id
                 ghost_map_ := mapErase page_id s.ghost_map_
                 mfu_ := frame_id :: s.mfu_
                 alive_map_ := mapInsert frame_id ⟨page_id, frame_id, true, .MFU⟩ s.alive_map_
                 curr_size_ := incr64 s.curr_size_ }
      else if gs.arc_status_ = .MFU_GHOST then
        let p' :=
          if s.mfu_ghost_.length ≥ s.mru_ghost_.length then
            max 0 (sub64 s.mru_target_size_ 1)
          else
            max 0 (sub64 s.mru_target_size_ (s.mru_ghost_.length / s.mfu_ghost_.length))
        { s with mru_target_size_ := p'
                 mfu_ghost_ := s.mfu_ghost_.erase page_id
                 ghost_map_ := mapErase page_id s.ghost_map_
                 mfu_ := frame_id :: s.mfu_
                 alive_map_ := mapInsert frame_id ⟨page_id, frame_id, true, .MFU⟩ s.alive_map_
                 curr_size_ := incr64 s.curr_size_ }
      else
        s.recordMiss frame_id page_id
    | none =>
      s.recordMiss frame_id page_id

/-- The eviction scan's per-element test: the frame is in alive_map_ and its
entry's evictable_ flag is set. -/
def evictableIn (s : ArcReplacer) (fid : Nat) : Bool :=
  match mapFind fid s.alive_map_ with
  | some fs => fs.evictable_
  | none => false

/-- The loop for (auto it = list.rbegin(); it != list.rend(); ++it) of
ArcReplacer::Evict: find the element nearest the tail that is alive and
evictable; return it, its FrameStatus, and the list with that element
erased. -/
def scanVictim (s : ArcReplacer) : List Nat → Option (Nat × FrameStatus × List Nat)
  | [] => none
  | x :: xs =>
    match scanVictim s xs with
    | some (fid, fs, ys) => some (fid, fs, x :: ys)
    | none =>
      match mapFind x s.alive_map_ with
      | some fs => if fs.evictable_ then some (x, fs, xs) else none
      | none => none

/-- The commit block of Evict for a victim taken from mru_: push the page
onto mru_ghost_, record an MRU_GHOST entry in ghost_map_, erase the frame
from alive_map_, decrement curr_size_. -/
def ArcReplacer.evictCommitMru (s : ArcReplacer) (fid : Nat) (fs : FrameStatus)
    (rest : List Nat) : ArcReplacer :=
  { s with mru_ := rest
           mru_ghost_ := fs.page_id_ :: s.mru_ghost_
           ghost_map_ := mapInsert fs.page_id_
             ⟨fs.page_id_, fs.frame_id_, fs.evictable_, .MRU_GHOST⟩ s.ghost_map_
           alive_map_ := mapErase fid s.alive_map_
           curr_size_ := decr64 s.curr_size_ }

/-- The commit block of Evict for a victim taken from mfu_. -/
def ArcReplacer.evictCommitMfu (s : ArcReplacer) (fid : Nat) (fs : FrameStatus)
    (rest : List Nat) : ArcReplacer :=
  { s with mfu_ := rest
           mfu_ghost_ := fs.page_id_ :: s.mfu_ghost_
           ghost_map_ := mapInsert fs.page_id_
             ⟨fs.page_id_, fs.frame_id_, fs.evictable_, .MFU_GHOST⟩ s.ghost_map_
           alive_map_ := mapErase fid s.alive_map_
           curr_size_ := decr64 s.curr_size_ }

/-- ArcReplacer::Evict (arc_replacer.cpp lines 48-188): returns the evicted
frame id (or none) together with the updated state. -/
def ArcReplacer.Evict (s : ArcReplacer) : Option Nat × ArcReplacer :=
  if s.curr_size_ = 0 then (none, s)
  else if s.mru_.length ≥ s.mru_target_size_ then
    match scanVictim s s.mru_ with
    | some (fid, fs, rest) => (some fid, s.evictCommitMru fid fs rest)
    | none =>
      match scanVictim s s.mfu_ with
      | some (fid, fs, rest) => (some fid, s.evictCommitMfu fid fs rest)
      | none => (none, s)
  else
    match scanVictim s s.mfu_ with
    | some (fid, fs, rest) => (some fid, s.evictCommitMfu fid fs rest)
    | none =>
      match scanVictim s s.mru_ with
      | some (fid, fs, rest) => (some fid, s.evictCommitMru fid fs rest)
      | none => (none, s)

/-- The two exceptions the replacer throws (std::invalid_argument in the
source, named as the spec names them). -/
inductive ReplacerError
  | unknownFrame
  | notEvictable
deriving DecidableEq, Repr

/-- ArcReplacer::SetEvictable (arc_replacer.cpp lines 341-368). -/
def ArcReplacer.SetEvictable (s : ArcReplacer) (frame_id : Nat) (set_evictable : Bool) :
    Except ReplacerError ArcReplacer :=
  match mapFind frame_id s.alive_map_ with
  | none => .error .unknownFrame
  | some fs =>
    if fs.evictable_ = set_evictable then .ok s
    else
      .ok { s with
        alive_map_ := mapInsert frame_id { fs with evictable_ := set_evictable } s.alive_map_
        curr_size_ := if set_evictable then incr64 s.curr_size_ else decr64 s.curr_size_ }

/-- ArcReplacer::Remove (arc_replacer.cpp lines 386-430). -/
def ArcReplacer.Remove (s : ArcReplacer) (frame_id : Nat) :
    Except ReplacerError ArcReplacer :=
  match mapFind frame_id s.alive_map_ with
  | none => .ok s
  | some fs =>
    if fs.evictable_ = false then .error .notEvictable
    else
      let s1 :=
        match fs.arc_status_ with
        | .MRU => { s with mru_ := s.mru_.erase frame_id }
        | .MFU => { s with mfu_ := s.mfu_.erase frame_id }
        | _ => s
      .ok { s1 with alive_map_ := mapErase frame_id s1.alive_map_
                    curr_size_ := decr64 s1.curr_size_ }

/-- ArcReplacer::Size (arc_replacer.cpp lines 439-442). -/
def ArcReplacer.Size (s : ArcReplacer) : Nat := s.curr_size_

end ArcSpec

namespace ArcSpec

/-! Arithmetic facts about the size_t model. -/

theorem W_pos : 0 < W := by norm_num [W]

theorem incr64_eq {n : Nat} (h : n + 1 < W) : incr64 n = n + 1 := by
  simp [incr64, Nat.mod_eq_of_lt h]

theorem decr64_eq {n : Nat} (h0 : n ≠ 0) (hW : n ≤ W) : decr64 n = n - 1 := by
  have hw : 0 < W := W_pos
  have h1 : 1 % W = 1 := by
    apply Nat.mod_eq_of_lt
    norm_num [W]
  have h2 : n + (W - 1 % W) = (n - 1) + W := by omega
  rw [decr64, sub64, h2, Nat.add_mod_right]
  exact Nat.mod_eq_of_lt (by omega)

/-! Lookup facts about the association-list maps. -/

theorem mapFind_mapErase_self (k : Nat) (m : List (Nat × FrameStatus)) :
    mapFind k (mapErase k m) = none := by
  induction m with
  | nil => rfl
  | cons kv t ih =>
    obtain ⟨k2, v⟩ := kv
    by_cases h : k2 = k
    · simp [mapErase, h, ih]
    · simp [mapErase, h, mapFind, Ne.symm h, ih]

theorem mapFind_mapErase_ne {g k : Nat} (h : g ≠ k) (m : List (Nat × FrameStatus)) :
    mapFind g (mapErase k m) = mapFind g m := by
  induction m with
  | nil => rfl
  | cons kv t ih =>
    obtain ⟨k2, v⟩ := kv
    by_cases h2 : k2 = k
    · subst h2
      simp [mapErase, mapFind, h, ih]
    · by_cases h3 : g = k2 <;> simp [mapErase, h2, mapFind, h3, ih]

theorem mapFind_mapInsert_self (k : Nat) (v : FrameStatus) (m : List (Nat × FrameStatus)) :
    mapFind k (mapInsert k v m) = some v := by
  simp [mapInsert, mapFind]

theorem mapFind_mapInsert_ne {g k : Nat} (h : g ≠ k) (v : FrameStatus)
    (m : List (Nat × FrameStatus)) :
    mapFind g (mapInsert k v m) = mapFind g m := by
  simp [mapInsert, mapFind, h, mapFind_mapErase_ne h]

/-! Facts about the eviction scan. -/

theorem scanVictim_some {s : ArcReplacer} {l : List Nat} {fid : Nat} {fs : FrameStatus}
    {rest : List Nat} (h : scanVictim s l = some (fid, fs, rest)) :
    mapFind fid s.alive_map_ = some fs ∧ fs.evictable_ = true ∧
      ∃ l1 l2, l = l1 ++ fid :: l2 ∧ rest = l1 ++ l2 := by
  induction l generalizing rest with
  | nil => simp [scanVictim] at h
  | cons x xs ih =>
    rw [scanVictim] at h
    cases hs : scanVictim s xs with
    | some t =>
      obtain ⟨a, afs, ys⟩ := t
      rw [hs] at h
      simp at h
      obtain ⟨ha, hfs, hrest⟩ := h
      subst ha; subst hfs
      obtain ⟨hf, he, l1, l2, hl, hr⟩ := ih hs
      refine ⟨hf, he, x :: l1, l2, by simp [hl], ?_⟩
      simp [← hrest, hr]
    | none =>
      rw [hs] at h
      cases hm : mapFind x s.alive_map_ with
      | some fs0 =>
        rw [hm] at h
        by_cases he : fs0.evictable_
        · simp [he] at h
          obtain ⟨hx, hfs, hrest⟩ := h
          subst hx; subst hfs
          exact ⟨hm, he, [], xs, by simp, by simp [hrest]⟩
        · simp [he] at h
      | none => rw [hm] at h; simp at h

theorem evictableIn_eq_of_find {s : ArcReplacer} {a : Nat} {fs : FrameStatus}
    (h : mapFind a s.alive_map_ = some fs) : evictableIn s a = fs.evictable_ := by
  simp [evictableIn, h]

theorem evictableIn_eq_false_of_none {s : ArcReplacer} {a : Nat}
    (h : mapFind a s.alive_map_ = none) : evictableIn s a = false := by
  simp [evictableIn, h]

theorem scanVictim_none {s : ArcReplacer} {l : List Nat} :
    scanVictim s l = none ↔ ∀ x ∈ l, evictableIn s x = false := by
  induction l with
  | nil => simp [scanVictim]
  | cons x xs ih =>
    rw [scanVictim]
    cases hs : scanVictim s xs with
    | some t =>
      obtain ⟨a, afs, ys⟩ := t
      simp only []
      constructor
      · intro h; simp at h
      · intro h
        exfalso
        obtain ⟨hf, he, l1, l2, hl, -⟩ := scanVictim_some hs
        have h2 : evictableIn s a = false := h a (by simp [hl])
        rw [evictableIn_eq_of_find hf, he] at h2
        simp at h2
    | none =>
      simp only []
      have hxs : ∀ y ∈ xs, evictableIn s y = false := ih.mp hs
      cases hm : mapFind x s.alive_map_ with
      | some fs0 =>
        by_cases he : fs0.evictable_ = true
        · simp only [he, if_true]
          constructor
          · intro h; simp at h
          · intro h
            exfalso
            have h2 : evictableIn s x = false := h x (by simp)
            rw [evictableIn_eq_of_find hm, he] at h2
            simp at h2
        · simp only [he, if_false]
          constructor
          · intro _ y hy
            rcases List.mem_cons.mp hy with hy | hy
            · subst hy
              rw [evictableIn_eq_of_find hm]
              simpa using he
            · exact hxs y hy
          · intro _; trivial
      | none =>
        simp only []
        constructor
        · intro _ y hy
          rcases List.mem_cons.mp hy with hy | hy
          · subst hy; exact evictableIn_eq_false_of_none hm
          · exact hxs y hy
        · intro _; trivial


theorem scanVictim_fst (s : ArcReplacer) (l : List Nat) :
    (scanVictim s l).map (fun t => t.1) = l.reverse.find? (fun x => evictableIn s x) := by
  induction l with
  | nil => simp [scanVictim]
  | cons x xs ih =>
    rw [scanVictim]
    cases hs : scanVictim s xs with
    | some t =>
      obtain ⟨a, afs, ys⟩ := t
      rw [hs] at ih
      simp only [List.reverse_cons, List.find?_append, ← ih]
      simp
    | none =>
      rw [hs] at ih
      simp only [List.reverse_cons, List.find?_append, ← ih]
      cases hm : mapFind x s.alive_map_ with
      | some fs0 =>
        by_cases he : fs0.evictable_ = true <;>
          simp [hm, he, evictableIn_eq_of_find hm]
      | none => simp [hm, evictableIn_eq_false_of_none hm]

theorem evict_fst_some_evictable {s : ArcReplacer} {f : Nat}
    (h : (s.Evict).1 = some f) : evictableIn s f = true := by
  rw [ArcReplacer.Evict] at h
  by_cases h0 : s.curr_size_ = 0
  · simp [h0] at h
  · rw [if_neg h0] at h
    by_cases hside : s.mru_.length ≥ s.mru_target_size_
    · rw [if_pos hside] at h
      cases h1 : scanVictim s s.mru_ with
      | some t =>
        obtain ⟨fid, fs, rest⟩ := t
        rw [h1] at h
        simp at h
        obtain ⟨hf, he, -⟩ := scanVictim_some h1
        rw [← h, evictableIn_eq_of_find hf, he]
      | none =>
        rw [h1] at h
        cases h2 : scanVictim s s.mfu_ with
        | some t =>
          obtain ⟨fid, fs, rest⟩ := t
          rw [h2] at h
          simp at h
          obtain ⟨hf, he, -⟩ := scanVictim_some h2
          rw [← h, evictableIn_eq_of_find hf, he]
        | none => rw [h2] at h; simp at h
    · rw [if_neg hside] at h
      cases h1 : scanVictim s s.mfu_ with
      | some t =>
        obtain ⟨fid, fs, rest⟩ := t
        rw [h1] at h
        simp at h
        obtain ⟨hf, he, -⟩ := scanVictim_some h1
        rw [← h, evictableIn_eq_of_find hf, he]
      | none =>
        rw [h1] at h
        cases h2 : scanVictim s s.mru_ with
        | some t =>
          obtain ⟨fid, fs, rest⟩ := t
          rw [h2] at h
          simp at h
          obtain ⟨hf, he, -⟩ := scanVictim_some h2
          rw [← h, evictableIn_eq_of_find hf, he]
        | none => rw [h2] at h; simp at h


/-- C4: Evict returns none whenever curr_size_ = 0; otherwise it selects its
victim by scanning the primary side (mru_ when its length is at least
mru_target_size_, else mfu_) from tail toward head for the first entry that
is alive and evictable, falling back to the opposite side scanned the same
way, and it returns none exactly when curr_size_ = 0 or neither side holds
an evictable entry. -/
theorem C4_evict_selection (s : ArcReplacer) :
    (s.Evict).1 =
      (if s.curr_size_ = 0 then none
       else if s.mru_.length ≥ s.mru_target_size_ then
         (s.mru_.reverse.find? (fun x => evictableIn s x)).or
           (s.mfu_.reverse.find? (fun x => evictableIn s x))
       else
         (s.mfu_.reverse.find? (fun x => evictableIn s x)).or
           (s.mru_.reverse.find? (fun x => evictableIn s x))) ∧
    ((s.Evict).1 = none ↔
      (s.curr_size_ = 0 ∨
        ((∀ x ∈ s.mru_, evictableIn s x = false) ∧
         (∀ x ∈ s.mfu_, evictableIn s x = false)))) := by
  have hmru := scanVictim_fst s s.mru_
  have hmfu := scanVictim_fst s s.mfu_
  constructor
  · rw [ArcReplacer.Evict]
    by_cases h0 : s.curr_size_ = 0
    · simp [h0]
    · rw [if_neg h0, if_neg h0]
      by_cases hside : s.mru_.length ≥ s.mru_target_size_
      · rw [if_pos hside, if_pos hside]
        cases h1 : scanVictim s s.mru_ with
        | some t =>
          obtain ⟨fid, fs, rest⟩ := t
          rw [h1] at hmru
          simp at hmru
          rw [← hmru]
          simp
        | none =>
          rw [h1] at hmru
          simp at hmru
          rw [← hmru]
          cases h2 : scanVictim s s.mfu_ with
          | some t =>
            obtain ⟨fid, fs, rest⟩ := t
            rw [h2] at hmfu
            simp at hmfu
            rw [← hmfu]
            simp
          | none =>
            rw [h2] at hmfu
            simp at hmfu
            rw [← hmfu]
            simp
      · rw [if_neg hside, if_neg hside]
        cases h1 : scanVictim s s.mfu_ with
        | some t =>
          obtain ⟨fid, fs, rest⟩ := t
          rw [h1] at hmfu
          simp at hmfu
          rw [← hmfu]
          simp
        | none =>
          rw [h1] at hmfu
          simp at hmfu
          rw [← hmfu]
          cases h2 : scanVictim s s.mru_ with
          | some t =>
            obtain ⟨fid, fs, rest⟩ := t
            rw [h2] at hmru
            simp at hmru
            rw [← hmru]
            simp
          | none =>
            rw [h2] at hmru
            simp at hmru
            rw [← hmru]
            simp
  · by_cases h0 : s.curr_size_ = 0
    · simp [ArcReplacer.Evict, h0]
    · constructor
      · intro hn
        right
        rw [ArcReplacer.Evict, if_neg h0] at hn
        by_cases hside : s.mru_.length ≥ s.mru_target_size_
        · rw [if_pos hside] at hn
          cases h1 : scanVictim s s.mru_ with
          | some t => obtain ⟨fid, fs, rest⟩ := t; rw [h1] at hn; simp at hn
          | none =>
            rw [h1] at hn
            cases h2 : scanVictim s s.mfu_ with
            | some t => obtain ⟨fid, fs, rest⟩ := t; rw [h2] at hn; simp at hn
            | none => exact ⟨scanVictim_none.mp h1, scanVictim_none.mp h2⟩
        · rw [if_neg hside] at hn
          cases h1 : scanVictim s s.mfu_ with
          | some t => obtain ⟨fid, fs, rest⟩ := t; rw [h1] at hn; simp at hn
          | none =>
            rw [h1] at hn
            cases h2 : scanVictim s s.mru_ with
            | some t => obtain ⟨fid, fs, rest⟩ := t; rw [h2] at hn; simp at hn
            | none => exact ⟨scanVictim_none.mp h2, scanVictim_none.mp h1⟩
      · intro hor
        rcases hor with h | ⟨ha, hb⟩
        · exact absurd h h0
        · have h1 : scanVictim s s.mru_ = none := scanVictim_none.mpr ha
          have h2 : scanVictim s s.mfu_ = none := scanVictim_none.mpr hb
          rw [ArcReplacer.Evict, if_neg h0]
          by_cases hside : s.mru_.length ≥ s.mru_target_size_ <;>
            simp [hside, h1, h2]


theorem not_mem_middle_of_nodup {l1 l2 : List Nat} {a : Nat}
    (h : (l1 ++ a :: l2).Nodup) : a ∉ l1 ++ l2 := by
  rw [List.nodup_append] at h
  obtain ⟨h1, h2, hd⟩ := h
  rw [List.nodup_cons] at h2
  intro hmem
  rcases List.mem_append.mp hmem with hm | hm
  · exact hd hm (List.mem_cons_self a l2)
  · exact h2.1 hm

theorem evictCommitMru_post {s : ArcReplacer} {f : Nat} {fs : FrameStatus} {l1 l2 : List Nat}
    (hl : s.mru_ = l1 ++ f :: l2) (hnd : s.mru_.Nodup)
    (h0 : s.curr_size_ ≠ 0) (hcs : s.curr_size_ ≤ W)
    (hfind : mapFind f s.alive_map_ = some fs) :
    mapFind f (s.evictCommitMru f fs (l1 ++ l2)).alive_map_ = none ∧
    (s.evictCommitMru f fs (l1 ++ l2)).curr_size_ + 1 = s.curr_size_ ∧
    f ∈ s.mru_ ∧ f ∉ (s.evictCommitMru f fs (l1 ++ l2)).mru_ ∧
    (s.evictCommitMru f fs (l1 ++ l2)).mfu_ = s.mfu_ ∧
    (s.evictCommitMru f fs (l1 ++ l2)).mru_ghost_ = fs.page_id_ :: s.mru_ghost_ ∧
    (s.evictCommitMru f fs (l1 ++ l2)).mfu_ghost_ = s.mfu_ghost_ ∧
    mapFind fs.page_id_ (s.evictCommitMru f fs (l1 ++ l2)).ghost_map_ =
      some ⟨fs.page_id_, fs.frame_id_, fs.evictable_, .MRU_GHOST⟩ := by
  refine ⟨?_, ?_, ?_, ?_, rfl, rfl, rfl, ?_⟩
  · exact mapFind_mapErase_self f s.alive_map_
  · show decr64 s.curr_size_ + 1 = s.curr_size_
    rw [decr64_eq h0 hcs]
    omega
  · simp [hl]
  · show f ∉ l1 ++ l2
    rw [hl] at hnd
    exact not_mem_middle_of_nodup hnd
  · exact mapFind_mapInsert_self _ _ _

theorem evictCommitMfu_post {s : ArcReplacer} {f : Nat} {fs : FrameStatus} {l1 l2 : List Nat}
    (hl : s.mfu_ = l1 ++ f :: l2) (hnd : s.mfu_.Nodup)
    (h0 : s.curr_size_ ≠ 0) (hcs : s.curr_size_ ≤ W)
    (hfind : mapFind f s.alive_map_ = some fs) :
    mapFind f (s.evictCommitMfu f fs (l1 ++ l2)).alive_map_ = none ∧
    (s.evictCommitMfu f fs (l1 ++ l2)).curr_size_ + 1 = s.curr_size_ ∧
    f ∈ s.mfu_ ∧ f ∉ (s.evictCommitMfu f fs (l1 ++ l2)).mfu_ ∧
    (s.evictCommitMfu f fs (l1 ++ l2)).mru_ = s.mru_ ∧
    (s.evictCommitMfu f fs (l1 ++ l2)).mfu_ghost_ = fs.page_id_ :: s.mfu_ghost_ ∧
    (s.evictCommitMfu f fs (l1 ++ l2)).mru_ghost_ = s.mru_ghost_ ∧
    mapFind fs.page_id_ (s.evictCommitMfu f fs (l1 ++ l2)).ghost_map_ =
      some ⟨fs.page_id_, fs.frame_id_, fs.evictable_, .MFU_GHOST⟩ := by
  refine ⟨?_, ?_, ?_, ?_, rfl, rfl, rfl, ?_⟩
  · exact mapFind_mapErase_self f s.alive_map_
  · show decr64 s.curr_size_ + 1 = s.curr_size_
    rw [decr64_eq h0 hcs]
    omega
  · simp [hl]
  · show f ∉ l1 ++ l2
    rw [hl] at hnd
    exact not_mem_middle_of_nodup hnd
  · exact mapFind_mapInsert_self _ _ _

/-- C5: whenever Evict returns some f with successor state s2, frame f held
some FrameStatus fs in alive_map_ and afterwards f is gone from alive_map_
and from the tier list it was scanned out of, fs.page_id_ sits at the head
of the ghost list of the side f actually came from (mru_ to mru_ghost_,
mfu_ to mfu_ghost_) with a matching ghost_map_ entry, and curr_size_ has
decreased by exactly one. Stated for states whose tier lists are duplicate
free and whose curr_size_ fits in a size_t, as every state the replacer can
actually reach does. -/
theorem C5_evict_commit (s s2 : ArcReplacer) (f : Nat)
    (hE : s.Evict = (some f, s2))
    (hmru : s.mru_.Nodup) (hmfu : s.mfu_.Nodup)
    (hcs : s.curr_size_ ≤ W) :
    ∃ fs, mapFind f s.alive_map_ = some fs ∧
      mapFind f s2.alive_map_ = none ∧
      s2.curr_size_ + 1 = s.curr_size_ ∧
      ((f ∈ s.mru_ ∧ f ∉ s2.mru_ ∧ s2.mfu_ = s.mfu_ ∧
        s2.mru_ghost_ = fs.page_id_ :: s.mru_ghost_ ∧
        s2.mfu_ghost_ = s.mfu_ghost_ ∧
        mapFind fs.page_id_ s2.ghost_map_ =
          some ⟨fs.page_id_, fs.frame_id_, fs.evictable_, .MRU_GHOST⟩) ∨
       (f ∈ s.mfu_ ∧ f ∉ s2.mfu_ ∧ s2.mru_ = s.mru_ ∧
        s2.mfu_ghost_ = fs.page_id_ :: s.mfu_ghost_ ∧
        s2.mru_ghost_ = s.mru_ghost_ ∧
        mapFind fs.page_id_ s2.ghost_map_ =
          some ⟨fs.page_id_, fs.frame_id_, fs.evictable_, .MFU_GHOST⟩)) := by
  rw [ArcReplacer.Evict] at hE
  by_cases h0 : s.curr_size_ = 0
  · rw [if_pos h0] at hE
    exact absurd (congrArg Prod.fst hE) (by simp)
  · rw [if_neg h0] at hE
    by_cases hside : s.mru_.length ≥ s.mru_target_size_
    · rw [if_pos hside] at hE
      cases h1 : scanVictim s s.mru_ with
      | some t =>
        obtain ⟨fid, fs, rest⟩ := t
        rw [h1] at hE
        have hfid : fid = f := Option.some.inj (congrArg Prod.fst hE)
        have hs2 : s.evictCommitMru fid fs rest = s2 := congrArg Prod.snd hE
        subst hfid
        obtain ⟨hfind, he, l1, l2, hl, hr⟩ := scanVictim_some h1
        subst hr
        obtain ⟨p1, p2, p3, p4, p5, p6, p7, p8⟩ :=
          evictCommitMru_post hl hmru h0 hcs hfind
        rw [hs2] at p1 p2 p4 p5 p6 p7 p8
        exact ⟨fs, hfind, p1, p2, Or.inl ⟨p3, p4, p5, p6, p7, p8⟩⟩
      | none =>
        rw [h1] at hE
        cases h2 : scanVictim s s.mfu_ with
        | some t =>
          obtain ⟨fid, fs, rest⟩ := t
          rw [h2] at hE
          have hfid : fid = f := Option.some.inj (congrArg Prod.fst hE)
          have hs2 : s.evictCommitMfu fid fs rest = s2 := congrArg Prod.snd hE
          subst hfid
          obtain ⟨hfind, he, l1, l2, hl, hr⟩ := scanVictim_some h2
          subst hr
          obtain ⟨p1, p2, p3, p4, p5, p6, p7, p8⟩ :=
            evictCommitMfu_post hl hmfu h0 hcs hfind
          rw [hs2] at p1 p2 p4 p5 p6 p7 p8
          exact ⟨fs, hfind, p1, p2, Or.inr ⟨p3, p4, p5, p6, p7, p8⟩⟩
        | none =>
          rw [h2] at hE
          exact absurd (congrArg Prod.fst hE) (by simp)
    · rw [if_neg hside] at hE
      cases h1 : scanVictim s s.mfu_ with
      | some t =>
        obtain ⟨fid, fs, rest⟩ := t
        rw [h1] at hE
        have hfid : fid = f := Option.some.inj (congrArg Prod.fst hE)
        have hs2 : s.evictCommitMfu fid fs rest = s2 := congrArg Prod.snd hE
        subst hfid
        obtain ⟨hfind, he, l1, l2, hl, hr⟩ := scanVictim_some h1
        subst hr
        obtain ⟨p1, p2, p3, p4, p5, p6, p7, p8⟩ :=
          evictCommitMfu_post hl hmfu h0 hcs hfind
        rw [hs2] at p1 p2 p4 p5 p6 p7 p8
        exact ⟨fs, hfind, p1, p2, Or.inr ⟨p3, p4, p5, p6, p7, p8⟩⟩
      | none =>
        rw [h1] at hE
        cases h2 : scanVictim s s.mru_ with
        | some t =>
          obtain ⟨fid, fs, rest⟩ := t
          rw [h2] at hE
          have hfid : fid = f := Option.some.inj (congrArg Prod.fst hE)
          have hs2 : s.evictCommitMru fid fs rest = s2 := congrArg Prod.snd hE
          subst hfid
          obtain ⟨hfind, he, l1, l2, hl, hr⟩ := scanVictim_some h2
          subst hr
          obtain ⟨p1, p2, p3, p4, p5, p6, p7, p8⟩ :=
            evictCommitMru_post hl hmru h0 hcs hfind
          rw [hs2] at p1 p2 p4 p5 p6 p7 p8
          exact ⟨fs, hfind, p1, p2, Or.inl ⟨p3, p4, p5, p6, p7, p8⟩⟩
        | none =>
          rw [h2] at hE
          exact absurd (congrArg Prod.fst hE) (by simp)


/-- A concrete one-frame state with frame 0 resident in mfu_ and evictable. -/
def c5s : ArcReplacer :=
  { replacer_size_ := 1
    mru_ := []
    mfu_ := [0]
    mru_ghost_ := []
    mfu_ghost_ := []
    alive_map_ := [(0, ⟨100, 0, true, .MFU⟩)]
    ghost_map_ := []
    curr_size_ := 1
    mru_target_size_ := 0 }

/-- The state c5s.Evict leaves behind. -/
def c5s2 : ArcReplacer :=
  { replacer_size_ := 1
    mru_ := []
    mfu_ := []
    mru_ghost_ := []
    mfu_ghost_ := [100]
    alive_map_ := []
    ghost_map_ := [(100, ⟨100, 0, true, .MFU_GHOST⟩)]
    curr_size_ := 0
    mru_target_size_ := 0 }

theorem C5_evict_commit_witness :
    ∃ fs, mapFind 0 c5s.alive_map_ = some fs ∧
      mapFind 0 c5s2.alive_map_ = none ∧
      c5s2.curr_size_ + 1 = c5s.curr_size_ ∧
      ((0 ∈ c5s.mru_ ∧ 0 ∉ c5s2.mru_ ∧ c5s2.mfu_ = c5s.mfu_ ∧
        c5s2.mru_ghost_ = fs.page_id_ :: c5s.mru_ghost_ ∧
        c5s2.mfu_ghost_ = c5s.mfu_ghost_ ∧
        mapFind fs.page_id_ c5s2.ghost_map_ =
          some ⟨fs.page_id_, fs.frame_id_, fs.evictable_, .MRU_GHOST⟩) ∨
       (0 ∈ c5s.mfu_ ∧ 0 ∉ c5s2.mfu_ ∧ c5s2.mru_ = c5s.mru_ ∧
        c5s2.mfu_ghost_ = fs.page_id_ :: c5s.mfu_ghost_ ∧
        c5s2.mru_ghost_ = c5s.mru_ghost_ ∧
        mapFind fs.page_id_ c5s2.ghost_map_ =
          some ⟨fs.page_id_, fs.frame_id_, fs.evictable_, .MFU_GHOST⟩)) :=
  C5_evict_commit c5s c5s2 0 (by decide) (by decide) (by decide) (by decide)


/-- Unwrap an Except result, with a default for the error case (trace glue
for concrete executions). -/
def getOk (d : ArcReplacer) : Except ReplacerError ArcReplacer → ArcReplacer
  | .ok s => s
  | .error _ => d

/-- Trace with capacity 1: RecordAccess(0,100). -/
def c1s1 : ArcReplacer := (ArcReplacer.new 1).RecordAccess 0 100

/-- Then RecordAccess(0,100) again (promotes frame 0 to mfu_). -/
def c1s2 : ArcReplacer := c1s1.RecordAccess 0 100

/-- Then SetEvictable(0,true). -/
def c1s3 : ArcReplacer := getOk c1s2 (c1s2.SetEvictable 0 true)

/-- Then Evict() (victimizes frame 0 from mfu_ into mfu_ghost_). -/
def c1s4 : ArcReplacer := (c1s3.Evict).2

/-- Then RecordAccess(0,100): a hit on mfu_ghost_ with p = 0, so the case 3
target-size update computes p - 1 in unsigned size_t arithmetic. -/
def c1s5 : ArcReplacer := c1s4.RecordAccess 0 100

/-- C1 is violated by the code on this reachable capacity-1 trace: after
RecordAccess(0,100); RecordAccess(0,100); SetEvictable(0,true); Evict();
RecordAccess(0,100), the target size mru_target_size_ is 2^64 - 1, far above
the capacity C = 1, because the case 3 update subtracts delta from p with
unsigned wrap-around (std::max(size_t(0), p - delta) never clamps). -/
theorem C1_target_size_exceeds_capacity :
    (c1s2.SetEvictable 0 true).toOption = some c1s3 ∧
    (c1s3.Evict).1 = some 0 ∧
    c1s5.mru_target_size_ = W - 1 ∧
    ¬ c1s5.mru_target_size_ ≤ c1s5.replacer_size_ := by decide

/-- C2 is violated by the code at the reachable state c1s4: frame 0 is not
resident, page 100 is a ghost in mfu_ghost_ (case 3), \|B1\| = 0, \|B2\| = 1,
p = 0, so delta = 1 and the claimed new target size max(0, p - delta) is 0;
the code instead leaves mru_target_size_ = 2^64 - 1 (unsigned wrap). -/
theorem C2_target_size_update_wraps :
    mapFind 0 c1s4.alive_map_ = none ∧
    (mapFind 100 c1s4.ghost_map_).map (fun g => g.arc_status_) = some .MFU_GHOST ∧
    c1s4.mru_ghost_.length = 0 ∧
    c1s4.mfu_ghost_.length = 1 ∧
    c1s4.mru_target_size_ = 0 ∧
    c1s5 = c1s4.RecordAccess 0 100 ∧
    c1s5.mru_target_size_ = W - 1 ∧
    max 0 (c1s4.mru_target_size_ - 1) = 0 := by decide

/-- Capacity-1 state with frame 0 resident in mru_ and no ghosts:
\|T1\| + \|B1\| = C with B1 empty. -/
def c3s1 : ArcReplacer := (ArcReplacer.new 1).RecordAccess 0 100

/-- C3's second half is violated by the code: at c3s1 (capacity 1, mru_ =
\x7b0\x7d, no ghosts) the miss RecordAccess(1,200) satisfies \|T1\| + \|B1\| = C
with \|T1\| = C and B1 empty, and the claim says the tail of T1 is dropped
before insertion; the code drops nothing, leaving mru_ = [1, 0] of length
C + 1 with the old tail 0 still present. -/
theorem C3_tail_not_dropped_cex :
    c3s1.mru_.length + c3s1.mru_ghost_.length = c3s1.replacer_size_ ∧
    c3s1.mru_ghost_ = [] ∧
    mapFind 1 c3s1.alive_map_ = none ∧
    mapFind 200 c3s1.ghost_map_ = none ∧
    (c3s1.RecordAccess 1 200).mru_ = [1, 0] ∧
    0 ∈ (c3s1.RecordAccess 1 200).mru_ ∧
    (c3s1.RecordAccess 1 200).mru_.length = c3s1.replacer_size_ + 1 := by decide

/-- C3 (amended): on a miss with \|T1\| + \|B1\| = C, when B1 is nonempty
(equivalently \|T1\| < C) the tail of B1 and its ghost_map_ entry are
dropped before the new entry is inserted at the head of T1; when B1 is
empty (\|T1\| = C) nothing is dropped and the new entry is inserted anyway,
growing T1 to C + 1 entries. -/
theorem C3_capacity_trim_amended (s : ArcReplacer) (f p : Nat)
    (hA : mapFind f s.alive_map_ = none)
    (hG : mapFind p s.ghost_map_ = none)
    (hcap : s.mru_.length + s.mru_ghost_.length = s.replacer_size_) :
    (s.mru_ghost_ ≠ [] →
      ∃ g, s.mru_ghost_.getLast? = some g ∧
        (s.RecordAccess f p).mru_ghost_ = s.mru_ghost_.dropLast ∧
        mapFind g (s.RecordAccess f p).ghost_map_ = none ∧
        (s.RecordAccess f p).mru_ = f :: s.mru_ ∧
        (s.RecordAccess f p).mfu_ghost_ = s.mfu_ghost_) ∧
    (s.mru_ghost_ = [] →
      (s.RecordAccess f p).mru_ = f :: s.mru_ ∧
      (s.RecordAccess f p).mru_ghost_ = [] ∧
      (s.RecordAccess f p).mfu_ghost_ = s.mfu_ghost_ ∧
      (s.RecordAccess f p).ghost_map_ = s.ghost_map_ ∧
      (s.RecordAccess f p).mru_.length = s.replacer_size_ + 1) := by
  have hred : s.RecordAccess f p = s.recordMiss f p := by
    simp only [ArcReplacer.RecordAccess, hA, hG]
  rw [hred]
  constructor
  · intro hne
    cases hg : s.mru_ghost_.getLast? with
    | none =>
      exact absurd (List.getLast?_eq_none_iff.mp hg) hne
    | some g =>
      refine ⟨g, rfl, ?_, ?_, ?_, ?_⟩ <;>
        simp only [ArcReplacer.recordMiss, hcap, if_pos rfl, hg] <;>
        first
          | rfl
          | exact mapFind_mapErase_self g s.ghost_map_
  · intro hemp
    have hlen : s.mru_.length = s.replacer_size_ := by
      rw [hemp] at hcap
      simpa using hcap
    refine ⟨?_, ?_, ?_, ?_, ?_⟩ <;>
      simp only [ArcReplacer.recordMiss, hcap, if_pos rfl, hemp, List.getLast?_nil] <;>
      simp [hemp, hlen]


/-- Capacity-1 state whose mru_ghost_ holds page 100 (so the B1 trim branch
of a miss fires). -/
def c3w : ArcReplacer :=
  { replacer_size_ := 1
    mru_ := []
    mfu_ := []
    mru_ghost_ := [100]
    mfu_ghost_ := []
    alive_map_ := []
    ghost_map_ := [(100, ⟨100, 0, true, .MRU_GHOST⟩)]
    curr_size_ := 0
    mru_target_size_ := 0 }

theorem C3_capacity_trim_amended_witness :
    (c3w.mru_ghost_ ≠ [] →
      ∃ g, c3w.mru_ghost_.getLast? = some g ∧
        (c3w.RecordAccess 0 200).mru_ghost_ = c3w.mru_ghost_.dropLast ∧
        mapFind g (c3w.RecordAccess 0 200).ghost_map_ = none ∧
        (c3w.RecordAccess 0 200).mru_ = 0 :: c3w.mru_ ∧
        (c3w.RecordAccess 0 200).mfu_ghost_ = c3w.mfu_ghost_) ∧
    (c3w.mru_ghost_ = [] →
      (c3w.RecordAccess 0 200).mru_ = 0 :: c3w.mru_ ∧
      (c3w.RecordAccess 0 200).mru_ghost_ = [] ∧
      (c3w.RecordAccess 0 200).mfu_ghost_ = c3w.mfu_ghost_ ∧
      (c3w.RecordAccess 0 200).ghost_map_ = c3w.ghost_map_ ∧
      (c3w.RecordAccess 0 200).mru_.length = c3w.replacer_size_ + 1) :=
  C3_capacity_trim_amended c3w 0 200 (by decide) (by decide) (by decide)

theorem setEvictable_flip_true {s : ArcReplacer} {f : Nat} {fs : FrameStatus}
    (h : mapFind f s.alive_map_ = some fs) (hev : fs.evictable_ = false) :
    s.SetEvictable f true =
      .ok { s with alive_map_ := mapInsert f { fs with evictable_ := true } s.alive_map_
                   curr_size_ := incr64 s.curr_size_ } := by
  simp only [ArcReplacer.SetEvictable, h]
  rw [if_neg (by rw [hev]; exact Bool.false_ne_true), if_pos trivial]

theorem C6_miss_born_pinned (s : ArcReplacer) (f p : Nat)
    (hA : mapFind f s.alive_map_ = none)
    (hG : mapFind p s.ghost_map_ = none) :
    (s.RecordAccess f p).mru_.head? = some f ∧
    mapFind f (s.RecordAccess f p).alive_map_ = some ⟨p, f, false, .MRU⟩ ∧
    (s.RecordAccess f p).curr_size_ = s.curr_size_ ∧
    ((s.RecordAccess f p).Evict).1 ≠ some f ∧
    (∃ s2, (s.RecordAccess f p).SetEvictable f true = .ok s2 ∧
      evictableIn s2 f = true) := by
  have hred : s.RecordAccess f p = s.recordMiss f p := by
    simp only [ArcReplacer.RecordAccess, hA, hG]
  rw [hred]
  have hfind : mapFind f (s.recordMiss f p).alive_map_ = some ⟨p, f, false, .MRU⟩ := by
    simp only [ArcReplacer.recordMiss]
    exact mapFind_mapInsert_self _ _ _
  refine ⟨?_, hfind, ?_, ?_, ?_⟩
  · simp only [ArcReplacer.recordMiss]
    rfl
  · simp only [ArcReplacer.recordMiss]
    split
    · split <;> rfl
    · split
      · split
        · split <;> rfl
        · rfl
      · rfl
  · intro hcontra
    have hev := evict_fst_some_evictable hcontra
    rw [evictableIn_eq_of_find hfind] at hev
    simp at hev
  · exact ⟨_, setEvictable_flip_true hfind rfl,
      by rw [evictableIn, mapFind_mapInsert_self]⟩

theorem C6_miss_born_pinned_witness :
    ((ArcReplacer.new 1).RecordAccess 0 100).mru_.head? = some 0 ∧
    mapFind 0 ((ArcReplacer.new 1).RecordAccess 0 100).alive_map_ = some ⟨100, 0, false, .MRU⟩ ∧
    ((ArcReplacer.new 1).RecordAccess 0 100).curr_size_ = (ArcReplacer.new 1).curr_size_ ∧
    (((ArcReplacer.new 1).RecordAccess 0 100).Evict).1 ≠ some 0 ∧
    (∃ s2, ((ArcReplacer.new 1).RecordAccess 0 100).SetEvictable 0 true = .ok s2 ∧
      evictableIn s2 0 = true) :=
  C6_miss_born_pinned (ArcReplacer.new 1) 0 100 (by decide) (by decide)

/-- Continuation of the capacity-1 trace after c1s5 (where mru_target_size_
already holds 2^64 - 1): Remove(0). -/
def c7s6 : ArcReplacer := getOk c1s5 (c1s5.Remove 0)

/-- Then RecordAccess(0,200): a miss inserting frame 0 into mru_. -/
def c7s7 : ArcReplacer := c7s6.RecordAccess 0 200

/-- Then SetEvictable(0,true). -/
def c7s8 : ArcReplacer := getOk c7s7 (c7s7.SetEvictable 0 true)

/-- Then Evict(): mru_.length = 1 < mru_target_size_, so the primary side is
mfu_ (empty) and the fallback victimizes frame 0 from mru_ into mru_ghost_,
leaving page 200 as a ghost of B1. -/
def c7s9 : ArcReplacer := (c7s8.Evict).2

/-- Then RecordAccess(0,200): a hit on the B1 ghost (Case 2) taken with
mru_target_size_ = 2^64 - 1. -/
def c7s10 : ArcReplacer := c7s9.RecordAccess 0 200

/-- C7 is violated by the code at the reachable state c7s9: frame 0 is not
resident, page 200 is a ghost in mru_ghost_ (Case 2), \|B1\| = 1 is at
least \|B2\| = 0 so delta = 1, and mru_target_size_ = 2^64 - 1 (reachable
through the case 3 unsigned wrap). The claim says the new target size is
min(C, p + delta) = min(1, 2^64) = 1; the code computes p + delta in
unsigned size_t arithmetic, which wraps to 0, and stores min(C, 0) = 0. -/
theorem C7_case2_update_wraps :
    (c1s5.Remove 0).toOption = some c7s6 ∧
    (c7s7.SetEvictable 0 true).toOption = some c7s8 ∧
    (c7s8.Evict).1 = some 0 ∧
    mapFind 0 c7s9.alive_map_ = none ∧
    (mapFind 200 c7s9.ghost_map_).map (fun g => g.arc_status_) = some .MRU_GHOST ∧
    c7s9.mru_ghost_.length = 1 ∧
    c7s9.mfu_ghost_.length = 0 ∧
    c7s9.mru_target_size_ = W - 1 ∧
    c7s10 = c7s9.RecordAccess 0 200 ∧
    min c7s9.replacer_size_ (c7s9.mru_target_size_ + 1) = 1 ∧
    c7s10.mru_target_size_ = 0 ∧
    c7s10.mru_target_size_ ≠ min c7s9.replacer_size_ (c7s9.mru_target_size_ + 1) := by
  decide



/-- C8: Remove on a frame absent from alive_map_ returns silently with the
state unchanged; on a resident entry whose evictable_ flag is false it
fails with NotEvictable; otherwise it detaches the entry from its tier
list, deletes it from alive_map_, decrements curr_size_ by one (exactly,
whenever curr_size_ is a positive value that fits in a size_t, as in every
reachable state), and creates no ghost entry in mru_ghost_, mfu_ghost_ or
ghost_map_. -/
theorem C8_remove_behavior (s : ArcReplacer) (f : Nat) :
    (mapFind f s.alive_map_ = none → s.Remove f = .ok s) ∧
    (∀ fs, mapFind f s.alive_map_ = some fs → fs.evictable_ = false →
      s.Remove f = .error .notEvictable) ∧
    (∀ fs, mapFind f s.alive_map_ = some fs → fs.evictable_ = true →
      1 ≤ s.curr_size_ → s.curr_size_ ≤ W →
      ∃ s2, s.Remove f = .ok s2 ∧
        mapFind f s2.alive_map_ = none ∧
        s2.curr_size_ + 1 = s.curr_size_ ∧
        s2.mru_ = (if fs.arc_status_ = ArcStatus.MRU then s.mru_.erase f else s.mru_) ∧
        s2.mfu_ = (if fs.arc_status_ = ArcStatus.MFU then s.mfu_.erase f else s.mfu_) ∧
        s2.mru_ghost_ = s.mru_ghost_ ∧
        s2.mfu_ghost_ = s.mfu_ghost_ ∧
        s2.ghost_map_ = s.ghost_map_) := by
  refine ⟨?_, ?_, ?_⟩
  · intro h
    simp only [ArcReplacer.Remove, h]
  · intro fs h hev
    simp only [ArcReplacer.Remove, h, hev]
    rw [if_pos trivial]
  · intro fs h hev h1 hW
    have hdecr : decr64 s.curr_size_ + 1 = s.curr_size_ := by
      rw [decr64_eq (by omega) hW]
      omega
    cases hst : fs.arc_status_ with
    | MRU =>
      refine ⟨{ s with mru_ := s.mru_.erase f
                       alive_map_ := mapErase f s.alive_map_
                       curr_size_ := decr64 s.curr_size_ }, ?_, ?_, hdecr, ?_, ?_, rfl, rfl, rfl⟩
      · simp only [ArcReplacer.Remove, h, hev, hst]
        rfl
      · exact mapFind_mapErase_self f s.alive_map_
      · simp
      · simp
    | MFU =>
      refine ⟨{ s with mfu_ := s.mfu_.erase f
                       alive_map_ := mapErase f s.alive_map_
                       curr_size_ := decr64 s.curr_size_ }, ?_, ?_, hdecr, ?_, ?_, rfl, rfl, rfl⟩
      · simp only [ArcReplacer.Remove, h, hev, hst]
        rfl
      · exact mapFind_mapErase_self f s.alive_map_
      · simp
      · simp
    | MRU_GHOST =>
      refine ⟨{ s with alive_map_ := mapErase f s.alive_map_
                       curr_size_ := decr64 s.curr_size_ }, ?_, ?_, hdecr, ?_, ?_, rfl, rfl, rfl⟩
      · simp only [ArcReplacer.Remove, h, hev, hst]
        rfl
      · exact mapFind_mapErase_self f s.alive_map_
      · simp
      · simp
    | MFU_GHOST =>
      refine ⟨{ s with alive_map_ := mapErase f s.alive_map_
                       curr_size_ := decr64 s.curr_size_ }, ?_, ?_, hdecr, ?_, ?_, rfl, rfl, rfl⟩
      · simp only [ArcReplacer.Remove, h, hev, hst]
        rfl
      · exact mapFind_mapErase_self f s.alive_map_
      · simp
      · simp


/-- C9: a RecordAccess that hits a resident entry moves it as the claim
states (MRU: detached from mru_, re-tagged MFU, pushed at the head of mfu_;
MFU: moved to the head of mfu_), and in both sub-cases the target size,
curr_size_, the ghost lists and ghost_map_ are unchanged, while alive_map_
keeps exactly the same frames (in the MRU sub-case the hit entry's recorded
arc_status_ becomes MFU, as the claim itself states, and every other frame's
entry is untouched). -/
theorem C9_resident_hit (s : ArcReplacer) (f p : Nat) (fs : FrameStatus)
    (hA : mapFind f s.alive_map_ = some fs) :
    (fs.arc_status_ = ArcStatus.MRU → f ∈ s.mru_ →
      (s.RecordAccess f p).mru_ = s.mru_.erase f ∧
      (s.RecordAccess f p).mfu_ = f :: s.mfu_ ∧
      mapFind f (s.RecordAccess f p).alive_map_ = some { fs with arc_status_ := .MFU } ∧
      (∀ g, g ≠ f → mapFind g (s.RecordAccess f p).alive_map_ = mapFind g s.alive_map_)) ∧
    (fs.arc_status_ = ArcStatus.MFU → f ∈ s.mfu_ →
      (s.RecordAccess f p).mfu_ = f :: s.mfu_.erase f ∧
      (s.RecordAccess f p).mru_ = s.mru_ ∧
      (s.RecordAccess f p).alive_map_ = s.alive_map_) ∧
    (s.RecordAccess f p).mru_target_size_ = s.mru_target_size_ ∧
    (s.RecordAccess f p).curr_size_ = s.curr_size_ ∧
    (s.RecordAccess f p).mru_ghost_ = s.mru_ghost_ ∧
    (s.RecordAccess f p).mfu_ghost_ = s.mfu_ghost_ ∧
    (s.RecordAccess f p).ghost_map_ = s.ghost_map_ := by
  refine ⟨?_, ?_, ?_, ?_, ?_, ?_, ?_⟩
  · intro h1 h2
    have hred : s.RecordAccess f p =
        { s with mru_ := s.mru_.erase f
                 mfu_ := f :: s.mfu_
                 alive_map_ := mapInsert f { fs with arc_status_ := .MFU } s.alive_map_ } := by
      simp only [ArcReplacer.RecordAccess, hA, h1, h2, if_true]
    rw [hred]
    exact ⟨rfl, rfl, mapFind_mapInsert_self _ _ _,
      fun g hg => mapFind_mapInsert_ne hg _ _⟩
  · intro h1 h2
    have hred : s.RecordAccess f p = { s with mfu_ := f :: s.mfu_.erase f } := by
      simp only [ArcReplacer.RecordAccess, hA, h1, h2, if_true]
    rw [hred]
    exact ⟨rfl, rfl, rfl⟩
  all_goals
    simp only [ArcReplacer.RecordAccess, hA]
    cases fs.arc_status_ <;> first | (split_ifs <;> rfl) | rfl

/-- Capacity-2 state with frame 0 resident in mru_, for the C9 witness. -/
def c9w : ArcReplacer :=
  { replacer_size_ := 2
    mru_ := [0]
    mfu_ := []
    mru_ghost_ := []
    mfu_ghost_ := []
    alive_map_ := [(0, ⟨100, 0, false, .MRU⟩)]
    ghost_map_ := []
    curr_size_ := 0
    mru_target_size_ := 0 }

theorem C9_resident_hit_witness :
    ((⟨100, 0, false, .MRU⟩ : FrameStatus).arc_status_ = ArcStatus.MRU → 0 ∈ c9w.mru_ →
      (c9w.RecordAccess 0 100).mru_ = c9w.mru_.erase 0 ∧
      (c9w.RecordAccess 0 100).mfu_ = 0 :: c9w.mfu_ ∧
      mapFind 0 (c9w.RecordAccess 0 100).alive_map_ =
        some { (⟨100, 0, false, .MRU⟩ : FrameStatus) with arc_status_ := .MFU } ∧
      (∀ g, g ≠ 0 → mapFind g (c9w.RecordAccess 0 100).alive_map_ = mapFind g c9w.alive_map_)) ∧
    ((⟨100, 0, false, .MRU⟩ : FrameStatus).arc_status_ = ArcStatus.MFU → 0 ∈ c9w.mfu_ →
      (c9w.RecordAccess 0 100).mfu_ = 0 :: c9w.mfu_.erase 0 ∧
      (c9w.RecordAccess 0 100).mru_ = c9w.mru_ ∧
      (c9w.RecordAccess 0 100).alive_map_ = c9w.alive_map_) ∧
    (c9w.RecordAccess 0 100).mru_target_size_ = c9w.mru_target_size_ ∧
    (c9w.RecordAccess 0 100).curr_size_ = c9w.curr_size_ ∧
    (c9w.RecordAccess 0 100).mru_ghost_ = c9w.mru_ghost_ ∧
    (c9w.RecordAccess 0 100).mfu_ghost_ = c9w.mfu_ghost_ ∧
    (c9w.RecordAccess 0 100).ghost_map_ = c9w.ghost_map_ :=
  C9_resident_hit c9w 0 100 ⟨100, 0, false, .MRU⟩ (by decide)


/-- C10: when RecordAccess hits a resident frame, the page_id argument is
ignored entirely: the result does not depend on it, the ghost catalogs and
ghost_map_ are untouched, and the resident entry keeps its originally
recorded page_id_. -/
theorem C10_resident_hit_ignores_page (s : ArcReplacer) (f p1 p2 : Nat)
    (hA : ∃ fs, mapFind f s.alive_map_ = some fs) :
    s.RecordAccess f p1 = s.RecordAccess f p2 ∧
    (s.RecordAccess f p1).ghost_map_ = s.ghost_map_ ∧
    (s.RecordAccess f p1).mru_ghost_ = s.mru_ghost_ ∧
    (s.RecordAccess f p1).mfu_ghost_ = s.mfu_ghost_ ∧
    (∀ fs, mapFind f s.alive_map_ = some fs →
      ∀ fs2, mapFind f (s.RecordAccess f p1).alive_map_ = some fs2 →
        fs2.page_id_ = fs.page_id_) := by
  obtain ⟨fs, hfs⟩ := hA
  refine ⟨?_, ?_, ?_, ?_, ?_⟩
  · simp only [ArcReplacer.RecordAccess, hfs]
  · simp only [ArcReplacer.RecordAccess, hfs]
    cases fs.arc_status_ <;> first | (split_ifs <;> rfl) | rfl
  · simp only [ArcReplacer.RecordAccess, hfs]
    cases fs.arc_status_ <;> first | (split_ifs <;> rfl) | rfl
  · simp only [ArcReplacer.RecordAccess, hfs]
    cases fs.arc_status_ <;> first | (split_ifs <;> rfl) | rfl
  · intro fs0 hfs0 fs2 h2
    rw [hfs] at hfs0
    obtain rfl : fs = fs0 := Option.some.inj hfs0
    cases hst : fs.arc_status_ with
    | MRU =>
      by_cases hm : f ∈ s.mru_
      · rw [show s.RecordAccess f p1 =
            { s with mru_ := s.mru_.erase f
                     mfu_ := f :: s.mfu_
                     alive_map_ := mapInsert f { fs with arc_status_ := .MFU } s.alive_map_ } from by
          simp only [ArcReplacer.RecordAccess, hfs, hst, hm, if_true]] at h2
        rw [show (({ s with mru_ := s.mru_.erase f
                            mfu_ := f :: s.mfu_
                            alive_map_ := mapInsert f { fs with arc_status_ := .MFU } s.alive_map_ } :
              ArcReplacer)).alive_map_ = mapInsert f { fs with arc_status_ := .MFU } s.alive_map_ from rfl,
           mapFind_mapInsert_self] at h2
        obtain rfl : ({ fs with arc_status_ := .MFU } : FrameStatus) = fs2 := Option.some.inj h2
        rfl
      · rw [show s.RecordAccess f p1 = s from by
          simp only [ArcReplacer.RecordAccess, hfs, hst, hm, if_false]] at h2
        rw [hfs] at h2
        obtain rfl : fs = fs2 := Option.some.inj h2
        rfl
    | MFU =>
      by_cases hm : f ∈ s.mfu_
      · rw [show s.RecordAccess f p1 = { s with mfu_ := f :: s.mfu_.erase f } from by
          simp only [ArcReplacer.RecordAccess, hfs, hst, hm, if_true]] at h2
        rw [show (({ s with mfu_ := f :: s.mfu_.erase f } : ArcReplacer)).alive_map_ =
            s.alive_map_ from rfl, hfs] at h2
        obtain rfl : fs = fs2 := Option.some.inj h2
        rfl
      · rw [show s.RecordAccess f p1 = s from by
          simp only [ArcReplacer.RecordAccess, hfs, hst, hm, if_false]] at h2
        rw [hfs] at h2
        obtain rfl : fs = fs2 := Option.some.inj h2
        rfl
    | MRU_GHOST =>
      rw [show s.RecordAccess f p1 = s from by
        simp only [ArcReplacer.RecordAccess, hfs, hst]] at h2
      rw [hfs] at h2
      obtain rfl : fs = fs2 := Option.some.inj h2
      rfl
    | MFU_GHOST =>
      rw [show s.RecordAccess f p1 = s from by
        simp only [ArcReplacer.RecordAccess, hfs, hst]] at h2
      rw [hfs] at h2
      obtain rfl : fs = fs2 := Option.some.inj h2
      rfl

theorem C10_resident_hit_ignores_page_witness :
    c9w.RecordAccess 0 100 = c9w.RecordAccess 0 999 ∧
    (c9w.RecordAccess 0 100).ghost_map_ = c9w.ghost_map_ ∧
    (c9w.RecordAccess 0 100).mru_ghost_ = c9w.mru_ghost_ ∧
    (c9w.RecordAccess 0 100).mfu_ghost_ = c9w.mfu_ghost_ ∧
    (∀ fs, mapFind 0 c9w.alive_map_ = some fs →
      ∀ fs2, mapFind 0 (c9w.RecordAccess 0 100).alive_map_ = some fs2 →
        fs2.page_id_ = fs.page_id_) :=
  C10_resident_hit_ignores_page c9w 0 100 999 ⟨⟨100, 0, false, .MRU⟩, by decide⟩


end ArcSpec
